import Mathlib

/-!
A shallow embedding of the grade-dashboard script `app.py` (a Dash/pandas
application) and proofs about its data-transformation core: the loader
`load_data`, the student index `student_options`, the selection resolver
`prepare_student_data`, and the statistics computed by the chart callbacks
`update_grades_graph` (per-subject comparison), `update_average_grade_chart`
(per-unit averages) and `update_statistics` (overall statistics).

Grades (the `Note` column) are modelled as rationals; pandas DataFrames are
modelled as lists of records in row order.
-/

/-- One row of the spreadsheet: the columns Nom, Prenom, Matière, Note, UE. -/
structure GradeRecord where
  nom : String
  prenom : String
  matiere : String
  note : ℚ
  ue : String
deriving DecidableEq

/-- The full in-memory table, in file row order. -/
abbrev GradeTable := List GradeRecord

/-- A pandas DataFrame as the loader sees it: a column list plus the parsed rows. -/
structure Df where
  columns : List String
  rows : GradeTable
deriving DecidableEq

/-- The result of `pd.DataFrame()`: no columns, no rows. -/
def emptyDf : Df := ⟨[], []⟩

/-- Outcome of attempting to read the file at the given path: the path does not
exist (`os.path.exists` is false), `pd.read_excel` raises, or the file parses
into a DataFrame with the given columns and rows. -/
inductive LoadInput where
  | missing
  | parseError
  | parsed (columns : List String) (rows : GradeTable)

/-- The `required_columns` set checked by `load_data`. -/
def required_columns : List String := ["Nom", "Prenom", "Matière", "Note", "UE"]

/-- `load_data` (app.py lines 22-62): missing file or read error gives an empty
DataFrame; a parsed file whose columns do not include every required column
gives an empty DataFrame; otherwise the parsed DataFrame is returned as is. -/
def load_data : LoadInput → Df
  | .missing => emptyDf
  | .parseError => emptyDf
  | .parsed cols rows =>
      if required_columns.all (fun c => cols.contains c) then ⟨cols, rows⟩
      else emptyDf

/-- The display string f-string `"{Prenom} {Nom}"`. -/
def renderName (r : GradeRecord) : String := r.prenom ++ " " ++ r.nom

/-- The key used by `drop_duplicates(subset=['Nom', 'Prenom'])`. -/
def nameKey (r : GradeRecord) : String × String := (r.nom, r.prenom)

/-- `df.drop_duplicates(subset=['Nom', 'Prenom'])`: keep each row whose
(Nom, Prenom) pair has not been seen in an earlier row. -/
def dropDuplicatesByName (seen : List (String × String)) : GradeTable → GradeTable
  | [] => []
  | r :: rs =>
      if nameKey r ∈ seen then dropDuplicatesByName seen rs
      else r :: dropDuplicatesByName (nameKey r :: seen) rs

/-- Python `sorted` on strings: ascending lexicographic (stable) sort. -/
def sortStrings (l : List String) : List String := l.insertionSort (· ≤ ·)

/-- `student_options` (app.py lines 89-95): on a non-empty table, the
duplicate-free (Nom, Prenom) rows rendered as "Prenom Nom" and sorted. -/
def student_options (df : GradeTable) : List String :=
  if df = [] then []
  else sortStrings ((dropDuplicatesByName [] df).map renderName)

/-- Helper for `splitOnce`: split a character list at its first space, if any. -/
def splitOnceAux : List Char → Option (List Char × List Char)
  | [] => none
  | c :: cs =>
      if c = ' ' then some ([], cs)
      else
        match splitOnceAux cs with
        | none => none
        | some (a, b) => some (c :: a, b)

/-- Python `s.split(' ', 1)`: at most one split, at the first space. A string
with no space yields the one-element list [s]; otherwise the text before the
first space and the whole text after it. -/
def splitOnce (s : String) : List String :=
  match splitOnceAux s.toList with
  | none => [s]
  | some (a, b) => [⟨a⟩, ⟨b⟩]

/-- The dictionary stored in `student-data-store` by `prepare_student_data`. -/
structure StudentSelection where
  student_records : GradeTable
  available_ues : List String
  student_name : String
deriving DecidableEq

/-- The rows selected by `student_mask = (df['Prenom'] == prenom) &
(df['Nom'] == nom)`: exact string equality on both fields. -/
def matchingRecords (df : GradeTable) (prenom nom : String) : GradeTable :=
  df.filter (fun r => r.prenom = prenom ∧ r.nom = nom)

/-- `prepare_student_data` (app.py lines 241-280): None for a falsy name or an
empty table; the name is split at its first space into (prenom, nom); if the
split yields fewer than two parts, or no row matches both fields exactly, the
result is None; otherwise the matching rows, the sorted set of their UE codes
and the name echoed back. -/
def prepare_student_data (df : GradeTable) (selected_student : String) :
    Option StudentSelection :=
  if selected_student = "" ∨ df = [] then none
  else
    match splitOnce selected_student with
    | [prenom, nom] =>
        if matchingRecords df prenom nom = [] then none
        else some ⟨matchingRecords df prenom nom,
                   sortStrings ((matchingRecords df prenom nom).map
                     (fun r => r.ue)).dedup,
                   selected_student⟩
    | _ => none

/-- Arithmetic mean of a list of grades (division by zero gives 0, but every
use below is on a non-empty group). -/
def listMean (l : List ℚ) : ℚ := l.sum / l.length

/-- Minimum of a non-empty list of grades (0 on the empty list, never used). -/
def listMin : List ℚ → ℚ
  | [] => 0
  | x :: xs => xs.foldl min x

/-- Maximum of a non-empty list of grades (0 on the empty list, never used). -/
def listMax : List ℚ → ℚ
  | [] => 0
  | x :: xs => xs.foldl max x

/-- The Note values of all rows of the table for one subject. -/
def notesOf (df : GradeTable) (m : String) : List ℚ :=
  (df.filter (fun r => r.matiere = m)).map (fun r => r.note)

/-- One row of the `class_stats` aggregate: Matière, Moyenne_Classe,
Min_Classe, Max_Classe. -/
structure ClassStat where
  matiere : String
  moyenneClasse : ℚ
  minClasse : ℚ
  maxClasse : ℚ
deriving DecidableEq

/-- `df.groupby('Matière').agg({'Note': ['mean', 'min', 'max']})` (app.py
lines 332-335): one row per distinct subject of the whole table, keys sorted
ascending as pandas groupby does, aggregated over that subject's notes. -/
def class_stats (df : GradeTable) : List ClassStat :=
  (sortStrings ((df.map (fun r => r.matiere)).dedup)).map (fun m =>
    ⟨m, listMean (notesOf df m), listMin (notesOf df m), listMax (notesOf df m)⟩)

/-- The `if selected_ue:` filter of `update_grades_graph`: a falsy value
(None, or the empty string) leaves the records unfiltered. -/
def filterUe (records : GradeTable) : Option String → GradeTable
  | none => records
  | some ue => if ue = "" then records else records.filter (fun r => r.ue = ue)

/-- One row of `plot_data = student_df.merge(class_stats, on='Matière',
how='left')`: class columns are None when the subject has no group (pandas
NaN). -/
structure PlotRow where
  matiere : String
  note : ℚ
  moyenneClasse : Option ℚ
  minClasse : Option ℚ
  maxClasse : Option ℚ
deriving DecidableEq

/-- The data rows of `update_grades_graph` (app.py lines 322-337): the
student's records, optionally UE-filtered, left-merged with `class_stats` on
Matière. Since `class_stats` has one row per subject, the left merge keeps one
output row per student record, in order, and attaches the matching class row
when one exists. -/
def subjectComparison (df : GradeTable) (sel : StudentSelection)
    (selected_ue : Option String) : List PlotRow :=
  let student_df := filterUe sel.student_records selected_ue
  let cs := class_stats df
  student_df.map (fun r =>
    match cs.find? (fun c => c.matiere = r.matiere) with
    | some c => ⟨r.matiere, r.note, some c.moyenneClasse, some c.minClasse,
                 some c.maxClasse⟩
    | none => ⟨r.matiere, r.note, none, none, none⟩)

/-- Round to the nearest integer, ties to even: the rounding used by pandas
`Series.round` and by Python float formatting. -/
def roundHalfEven (x : ℚ) : ℤ :=
  if Int.fract x < 1/2 then ⌊x⌋
  else if 1/2 < Int.fract x then ⌊x⌋ + 1
  else if ⌊x⌋ % 2 = 0 then ⌊x⌋ else ⌊x⌋ + 1

/-- `round(1)`: rounding to one decimal place. -/
def round1 (x : ℚ) : ℚ := (roundHalfEven (10 * x) : ℚ) / 10

/-- The value displayed by the format `f"{x:.2f}"`: x rounded to two decimal
places. -/
def round2 (x : ℚ) : ℚ := (roundHalfEven (100 * x) : ℚ) / 100

/-- One bar of the per-UE chart: UE, rounded mean Note, and the `nunique`
count of Matière merged in for the hover text. -/
structure UnitRow where
  ue : String
  note : ℚ
  nbMatieres : ℕ
deriving DecidableEq

/-- One group of `filtered_df.groupby('UE')`: the mean Note rounded to one
decimal, and the `nunique` count of Matière, over the records of one UE. -/
def ueRow (records : GradeTable) (u : String) : UnitRow :=
  ⟨u,
   round1 (listMean ((records.filter (fun r => r.ue = u)).map (fun r => r.note))),
   (((records.filter (fun r => r.ue = u)).map (fun r => r.matiere)).dedup).length⟩

/-- The data rows of `update_average_grade_chart` (app.py lines 486-500):
group the student's records by UE (one row per distinct UE), take the mean
Note rounded to one decimal, merge the per-UE `nunique` count of Matière, and
sort by UE. -/
def unitAverages (sel : StudentSelection) : List UnitRow :=
  (sortStrings ((sel.student_records.map (fun r => r.ue)).dedup)).map
    (ueRow sel.student_records)

/-- `update_statistics` (app.py lines 591-630): no stored data or an empty
record list displays "Pas de données"; otherwise the mean of all the
student's notes and the `nunique` count of subjects, over every unit (this
callback takes no UE input). None models the "Pas de données" branch. -/
def overall : Option StudentSelection → Option (ℚ × ℕ)
  | none => none
  | some s =>
      if s.student_records = [] then none
      else some (listMean (s.student_records.map (fun r => r.note)),
                 ((s.student_records.map (fun r => r.matiere)).dedup).length)

/-- The three bucket colours of the grade trichotomy. -/
inductive GradeColor where
  | red
  | orange
  | green
deriving DecidableEq

/-- The per-bar colour rule of `update_grades_graph` (app.py lines 343-349):
red below 10, orange at exactly 10, green above. -/
def gradeColorMain (note : ℚ) : GradeColor :=
  if note < 10 then .red else if note = 10 then .orange else .green

/-- The per-bar colour rule of `update_average_grade_chart` (app.py lines
504-510): red below 10, orange at exactly 10, green above. -/
def gradeColorUe (note : ℚ) : GradeColor :=
  if note < 10 then .red else if note = 10 then .orange else .green

/-- `colors_per_grade` (app.py lines 342-349): one colour per plotted row. -/
def colors_per_grade (df : GradeTable) (sel : StudentSelection)
    (selected_ue : Option String) : List GradeColor :=
  (subjectComparison df sel selected_ue).map (fun r => gradeColorMain r.note)

/-- `bar_colors` (app.py lines 503-510): one colour per UE row. -/
def bar_colors (sel : StudentSelection) : List GradeColor :=
  (unitAverages sel).map (fun r => gradeColorUe r.note)

/-- Helper for `specSpaceTokens`: split a character list at every space, as
Python `s.split(' ')` with no maxsplit does (empty tokens preserved). -/
def spaceTokensAux : List Char → List String
  | [] => [""]
  | c :: cs =>
      if c = ' ' then "" :: spaceTokensAux cs
      else
        match spaceTokensAux cs with
        | t :: ts => ⟨c :: t.toList⟩ :: ts
        | [] => [⟨[c]⟩]

/-- Stated from the spec's words, for comparison with `splitOnce`: the spec
speaks of the display name splitting "into exactly two space-separated
tokens", the full split at every space. -/
def specSpaceTokens (s : String) : List String := spaceTokensAux s.toList

/-! ## Concrete tables used to instantiate the theorems -/

/-- A one-row table whose last name itself contains a space. -/
def multiTable : GradeTable := [⟨"Pierre Dupont", "Jean", "Math", 12, "UE1"⟩]

/-- The three-row table of the end-to-end scenario described in the spec. -/
def dupontTable : GradeTable :=
  [⟨"Dupont", "Jean", "Math", 8, "UE1"⟩,
   ⟨"Dupont", "Jean", "Physics", 14, "UE1"⟩,
   ⟨"Dupont", "Jean", "Chemistry", 10, "UE2"⟩]

/-- A table in which one student has two records for the same subject. -/
def dupTable : GradeTable :=
  [⟨"Dupont", "Jean", "Math", 8, "UE1"⟩,
   ⟨"Dupont", "Jean", "Math", 12, "UE1"⟩]

/-- The selection `prepare_student_data dupTable "Jean Dupont"` produces. -/
def dupSel : StudentSelection := ⟨dupTable, ["UE1"], "Jean Dupont"⟩

/-- A selection holding two records for the same subject in one UE; its
grades [12, 8] average to exactly 10. -/
def twoGradeSel : StudentSelection :=
  ⟨[⟨"Durand", "Paul", "Math", 12, "UE1"⟩,
    ⟨"Durand", "Paul", "Math", 8, "UE1"⟩], ["UE1"], "Paul Durand"⟩

/-- The first comparison row produced for `dupSel` over `dupTable`: the
class group "Math" has notes [8, 12], so mean 10, min 8, max 12. -/
def w4row : PlotRow := ⟨"Math", 8, some 10, some 8, some 12⟩

/-! ## Shared lemmas about the embedded operations -/

theorem sortStrings_perm (l : List String) : List.Perm (sortStrings l) l :=
  List.perm_insertionSort _ l

theorem sortStrings_sorted (l : List String) : (sortStrings l).Sorted (· ≤ ·) :=
  List.sorted_insertionSort _ l

theorem mem_sortStrings {a : String} {l : List String} :
    a ∈ sortStrings l ↔ a ∈ l :=
  (sortStrings_perm l).mem_iff

theorem sortStrings_nodup {l : List String} (h : l.Nodup) :
    (sortStrings l).Nodup :=
  ((sortStrings_perm l).nodup_iff).mpr h

theorem foldl_min_le (xs : List ℚ) :
    ∀ x a : ℚ, a = x ∨ a ∈ xs → xs.foldl min x ≤ a := by
  induction xs with
  | nil =>
      intro x a h
      rcases h with rfl | h
      · exact le_refl a
      · cases h
  | cons y ys ih =>
      intro x a h
      simp only [List.foldl_cons]
      rcases h with rfl | h
      · exact le_trans (ih (min a y) (min a y) (Or.inl rfl)) (min_le_left _ _)
      · rcases List.mem_cons.mp h with rfl | h
        · exact le_trans (ih (min x a) (min x a) (Or.inl rfl)) (min_le_right _ _)
        · exact ih (min x y) a (Or.inr h)

theorem le_foldl_max (xs : List ℚ) :
    ∀ x a : ℚ, a = x ∨ a ∈ xs → a ≤ xs.foldl max x := by
  induction xs with
  | nil =>
      intro x a h
      rcases h with rfl | h
      · exact le_refl a
      · cases h
  | cons y ys ih =>
      intro x a h
      simp only [List.foldl_cons]
      rcases h with rfl | h
      · exact le_trans (le_max_left _ _) (ih (max a y) (max a y) (Or.inl rfl))
      · rcases List.mem_cons.mp h with rfl | h
        · exact le_trans (le_max_right _ _) (ih (max x a) (max x a) (Or.inl rfl))
        · exact ih (max x y) a (Or.inr h)

theorem listMin_le {l : List ℚ} {a : ℚ} (h : a ∈ l) : listMin l ≤ a := by
  cases l with
  | nil => cases h
  | cons x xs =>
      rcases List.mem_cons.mp h with rfl | h
      · exact foldl_min_le xs a a (Or.inl rfl)
      · exact foldl_min_le xs x a (Or.inr h)

theorem le_listMax {l : List ℚ} {a : ℚ} (h : a ∈ l) : a ≤ listMax l := by
  cases l with
  | nil => cases h
  | cons x xs =>
      rcases List.mem_cons.mp h with rfl | h
      · exact le_foldl_max xs a a (Or.inl rfl)
      · exact le_foldl_max xs x a (Or.inr h)

theorem find?_eq_of_mem_strings (l : List String) (m : String) :
    l.find? (fun k => k = m) = if m ∈ l then some m else none := by
  induction l with
  | nil => rfl
  | cons k ks ih =>
      by_cases hk : k = m
      · subst hk
        rw [List.find?_cons_of_pos _ (by simp)]
        simp
      · rw [List.find?_cons_of_neg _ (by simp [hk])]
        rw [ih]
        by_cases hm : m ∈ ks
        · simp [hm, List.mem_cons]
        · have : ¬ m ∈ k :: ks := by
            simp only [List.mem_cons, not_or]
            exact ⟨fun h => hk h.symm, hm⟩
          simp [hm, this]

theorem notesOf_ne_nil_iff {df : GradeTable} {m : String} :
    notesOf df m ≠ [] ↔ m ∈ df.map (fun r => r.matiere) := by
  unfold notesOf
  rw [Ne, List.map_eq_nil_iff, List.filter_eq_nil_iff]
  constructor
  · intro h
    push_neg at h
    obtain ⟨r, hr, hm⟩ := h
    simp only [decide_eq_true_eq] at hm
    exact List.mem_map.mpr ⟨r, hr, hm⟩
  · intro h hall
    obtain ⟨r, hr, hm⟩ := List.mem_map.mp h
    exact hall r hr (by simp [hm])

theorem note_mem_notesOf {df : GradeTable} {r : GradeRecord} (h : r ∈ df) :
    r.note ∈ notesOf df r.matiere := by
  unfold notesOf
  exact List.mem_map_of_mem _ (List.mem_filter.mpr ⟨h, by simp⟩)

theorem class_stats_find? (df : GradeTable) (m : String) :
    (class_stats df).find? (fun c => c.matiere = m) =
      if m ∈ df.map (fun r => r.matiere) then
        some ⟨m, listMean (notesOf df m), listMin (notesOf df m),
              listMax (notesOf df m)⟩
      else none := by
  unfold class_stats
  rw [List.find?_map]
  have hcomp :
      ((fun c : ClassStat => decide (c.matiere = m)) ∘
        (fun k => (⟨k, listMean (notesOf df k), listMin (notesOf df k),
                    listMax (notesOf df k)⟩ : ClassStat))) =
      fun k : String => decide (k = m) := by
    funext k
    rfl
  rw [hcomp, find?_eq_of_mem_strings]
  by_cases hm : m ∈ df.map (fun r => r.matiere)
  · have hm' : m ∈ sortStrings ((df.map (fun r => r.matiere)).dedup) := by
      rw [mem_sortStrings, List.mem_dedup]
      exact hm
    simp [hm, hm']
  · have hm' : ¬ m ∈ sortStrings ((df.map (fun r => r.matiere)).dedup) := by
      rw [mem_sortStrings, List.mem_dedup]
      exact hm
    simp [hm, hm']

theorem dropDuplicatesByName_subset (seen : List (String × String))
    (l : GradeTable) (r : GradeRecord) (h : r ∈ dropDuplicatesByName seen l) :
    r ∈ l := by
  induction l generalizing seen with
  | nil => cases h
  | cons x xs ih =>
      unfold dropDuplicatesByName at h
      by_cases hx : nameKey x ∈ seen
      · rw [if_pos hx] at h
        exact List.mem_cons_of_mem _ (ih seen h)
      · rw [if_neg hx] at h
        rcases List.mem_cons.mp h with rfl | h
        · exact List.mem_cons_self _ _
        · exact List.mem_cons_of_mem _ (ih _ h)

theorem dropDuplicatesByName_keys (seen : List (String × String))
    (l : GradeTable) :
    ((dropDuplicatesByName seen l).map nameKey).Nodup ∧
    ∀ k ∈ (dropDuplicatesByName seen l).map nameKey, k ∉ seen := by
  induction l generalizing seen with
  | nil => exact ⟨List.nodup_nil, fun k h => absurd h (by simp [dropDuplicatesByName])⟩
  | cons x xs ih =>
      unfold dropDuplicatesByName
      by_cases hx : nameKey x ∈ seen
      · rw [if_pos hx]
        exact ih seen
      · rw [if_neg hx]
        obtain ⟨hnd, hdisj⟩ := ih (nameKey x :: seen)
        constructor
        · rw [List.map_cons, List.nodup_cons]
          exact ⟨fun hmem => (hdisj _ hmem) (List.mem_cons_self _ _), hnd⟩
        · intro k hk
          rw [List.map_cons, List.mem_cons] at hk
          rcases hk with rfl | hk
          · exact hx
          · exact fun hks => hdisj k hk (List.mem_cons_of_mem _ hks)

theorem dropDuplicatesByName_complete (seen : List (String × String))
    (l : GradeTable) (r : GradeRecord) (hr : r ∈ l) (hs : nameKey r ∉ seen) :
    nameKey r ∈ (dropDuplicatesByName seen l).map nameKey := by
  induction l generalizing seen with
  | nil => cases hr
  | cons x xs ih =>
      unfold dropDuplicatesByName
      by_cases hx : nameKey x ∈ seen
      · rw [if_pos hx]
        rcases List.mem_cons.mp hr with rfl | hr
        · exact absurd hx hs
        · exact ih seen hr hs
      · rw [if_neg hx, List.map_cons, List.mem_cons]
        by_cases hk : nameKey r = nameKey x
        · exact Or.inl hk
        · rcases List.mem_cons.mp hr with rfl | hr
          · exact Or.inl rfl
          · refine Or.inr (ih (nameKey x :: seen) hr ?_)
            simp only [List.mem_cons, not_or]
            exact ⟨hk, hs⟩

/-! ## The claims -/

/-- C1: the grade trichotomy is one hard contract shared by the two chart
computations: in `update_grades_graph` and in `update_average_grade_chart`
alike, a grade is classified red exactly when it is below 10, orange exactly
when it equals 10, and green exactly when it is above 10 — so every value
lands in exactly one bucket, the two rules agree at every value, and a grade
of exactly 10 is never red or green in either chart. -/
theorem grade_trichotomy (x : ℚ) :
    gradeColorMain x = gradeColorUe x ∧
    (gradeColorMain x = .red ↔ x < 10) ∧
    (gradeColorMain x = .orange ↔ x = 10) ∧
    (gradeColorMain x = .green ↔ 10 < x) ∧
    (gradeColorUe x = .red ↔ x < 10) ∧
    (gradeColorUe x = .orange ↔ x = 10) ∧
    (gradeColorUe x = .green ↔ 10 < x) := by
  unfold gradeColorMain gradeColorUe
  split_ifs with h1 h2
  · exact ⟨rfl, by simp [h1], by simp [h1.ne], by simp [asymm h1],
      by simp [h1], by simp [h1.ne], by simp [asymm h1]⟩
  · exact ⟨rfl, by simp [h1], by simp [h2], by simp [h2],
      by simp [h1], by simp [h2], by simp [h2]⟩
  · have h3 : 10 < x := lt_of_le_of_ne (not_lt.mp h1) (fun e => h2 e.symm)
    exact ⟨rfl, by simp [h1], by simp [h2], by simp [h3],
      by simp [h1], by simp [h2], by simp [h3]⟩

/-- C7: `load_data` is a total function of the read outcome (it never
propagates an exception) and returns the empty DataFrame exactly when the
file is missing, cannot be parsed, or lacks one of the five required columns;
when the file parses and every required column is present — extra columns
included, which are simply carried along — it returns the fully parsed
DataFrame unchanged. -/
theorem load_data_empty_iff (inp : LoadInput) :
    (load_data inp = emptyDf ↔
      inp = .missing ∨ inp = .parseError ∨
      ∃ cols rows, inp = .parsed cols rows ∧
        ¬ (∀ c ∈ required_columns, c ∈ cols)) ∧
    (∀ cols rows, inp = .parsed cols rows →
      (∀ c ∈ required_columns, c ∈ cols) → load_data inp = ⟨cols, rows⟩) := by
  cases inp with
  | missing =>
      refine ⟨by simp [load_data], ?_⟩
      intro cols rows h
      simp at h
  | parseError =>
      refine ⟨by simp [load_data], ?_⟩
      intro cols rows h
      simp at h
  | parsed cols rows =>
      have hall : (required_columns.all (fun c => cols.contains c) = true) ↔
          ∀ c ∈ required_columns, c ∈ cols := by
        simp [List.all_eq_true]
      constructor
      · simp only [load_data]
        by_cases hc : ∀ c ∈ required_columns, c ∈ cols
        · rw [if_pos (hall.mpr hc)]
          apply iff_of_false
          · intro heq
            have hnom : "Nom" ∈ cols := hc "Nom" (by simp [required_columns])
            have : cols = [] := congrArg Df.columns heq
            rw [this] at hnom
            cases hnom
          · rintro (h | h | ⟨c', r', heq, hnot⟩)
            · simp at h
            · simp at h
            · injection heq with e1 e2
              subst e1
              exact hnot hc
        · rw [if_neg (fun hb => hc (hall.mp hb))]
          exact iff_of_true rfl (Or.inr (Or.inr ⟨cols, rows, rfl, hc⟩))
      · intro cols' rows' heq hc
        injection heq with e1 e2
        subst e1
        subst e2
        simp only [load_data]
        rw [if_pos (hall.mpr hc)]

/-- C8: `student_options` deduplicates the table's rows by the
(first name, last name) pair — every row's identity pair appears among the
kept rows, every kept row is a row of the table, and no identity pair
repeats — renders each kept identity as "First Last" and sorts
lexicographically ascending by that rendered string; the empty table yields
the empty sequence. -/
theorem student_options_sorted_dedup (df : GradeTable) :
    (student_options df).Sorted (· ≤ ·) ∧
    ((dropDuplicatesByName [] df).map nameKey).Nodup ∧
    (∀ r ∈ df, nameKey r ∈ (dropDuplicatesByName [] df).map nameKey) ∧
    (∀ r ∈ dropDuplicatesByName [] df, r ∈ df) ∧
    List.Perm (student_options df) ((dropDuplicatesByName [] df).map renderName) ∧
    student_options [] = [] := by
  refine ⟨?_, (dropDuplicatesByName_keys [] df).1, ?_, ?_, ?_, rfl⟩
  · unfold student_options
    by_cases h : df = []
    · rw [if_pos h]
      exact List.sorted_nil
    · rw [if_neg h]
      exact sortStrings_sorted _
  · intro r hr
    exact dropDuplicatesByName_complete [] df r hr (by simp)
  · intro r hr
    exact dropDuplicatesByName_subset [] df r hr
  · unfold student_options
    by_cases h : df = []
    · subst h
      simp [dropDuplicatesByName]
    · rw [if_neg h]
      exact sortStrings_perm _

theorem roundHalfEven_of_fract_lt (x : ℚ) (z : ℤ) (h1 : (z : ℚ) ≤ x)
    (h2 : x < z + 1) (h3 : x - z < 1/2) : roundHalfEven x = z := by
  have hf : ⌊x⌋ = z := Int.floor_eq_iff.mpr ⟨h1, h2⟩
  unfold roundHalfEven
  simp only [Int.fract, hf]
  rw [if_pos h3]

theorem roundHalfEven_of_fract_gt (x : ℚ) (z : ℤ) (h1 : (z : ℚ) ≤ x)
    (h2 : x < z + 1) (h3 : 1/2 < x - z) : roundHalfEven x = z + 1 := by
  have hf : ⌊x⌋ = z := Int.floor_eq_iff.mpr ⟨h1, h2⟩
  unfold roundHalfEven
  simp only [Int.fract, hf]
  rw [if_neg (by linarith), if_pos h3]

theorem splitOnce_shape (s : String) :
    (∃ a, splitOnce s = [a]) ∨ ∃ a b, splitOnce s = [a, b] := by
  unfold splitOnce
  rcases splitOnceAux s.toList with _ | ⟨a, b⟩
  · exact Or.inl ⟨s, rfl⟩
  · exact Or.inr ⟨⟨a⟩, ⟨b⟩, rfl⟩

theorem prepare_student_data_some (df : GradeTable) (name : String)
    (sel : StudentSelection) (h : prepare_student_data df name = some sel) :
    ∃ p n, splitOnce name = [p, n] ∧
      sel.student_records = matchingRecords df p n ∧
      sel.student_records ≠ [] ∧
      sel.available_ues =
        sortStrings ((sel.student_records.map (fun r => r.ue)).dedup) ∧
      sel.student_name = name := by
  unfold prepare_student_data at h
  split_ifs at h with h0
  split at h
  · rename_i p n heq
    split_ifs at h with hrec
    obtain rfl : sel = _ := (Option.some.inj h).symm
    exact ⟨p, n, heq, rfl, hrec, rfl, rfl⟩
  · simp at h

theorem matchingRecords_eq_nil_iff {df : GradeTable} {p n : String} :
    matchingRecords df p n = [] ↔ ∀ r ∈ df, ¬(r.prenom = p ∧ r.nom = n) := by
  unfold matchingRecords
  rw [List.filter_eq_nil_iff]
  simp

/-- C2 counterexample: the display name "Jean Pierre Dupont" has three
space-separated tokens, so the claim calls it malformed and demands null —
yet the code splits at the first space only (`split(' ', 1)`) and resolves it
against the row whose first name is "Jean" and last name "Pierre Dupont". -/
theorem resolve_multispace :
    prepare_student_data multiTable "Jean Pierre Dupont" ≠ none ∧
    (specSpaceTokens "Jean Pierre Dupont").length ≠ 2 :=
  ⟨by decide, by decide⟩

/-- C2 (amended): `prepare_student_data` returns None exactly when the display
name does not split at its first space into two parts (in particular when it
contains no space, or is empty), or when no row of the table has first name
equal to the text before the first space and last name equal to the whole
text after it. A name with more than one space is not malformed: it resolves
whenever a row matches the (first token, rest) split. -/
theorem resolve_none_iff (df : GradeTable) (name : String) :
    prepare_student_data df name = none ↔
      (∀ p n, splitOnce name ≠ [p, n]) ∨
      (∃ p n, splitOnce name = [p, n] ∧
        ∀ r ∈ df, ¬(r.prenom = p ∧ r.nom = n)) := by
  unfold prepare_student_data
  split_ifs with h0
  · refine iff_of_true rfl ?_
    rcases splitOnce_shape name with ⟨a, hsp⟩ | ⟨p, n, hsp⟩
    · refine Or.inl ?_
      intro p n hc
      rw [hsp] at hc
      injection hc with e1 e2
      exact List.cons_ne_nil _ _ e2.symm
    · rcases h0 with h0 | h0
      · rw [h0] at hsp
        have he : splitOnce "" = [""] := rfl
        rw [he] at hsp
        injection hsp with e1 e2
        exact absurd e2.symm (List.cons_ne_nil _ _)
      · refine Or.inr ⟨p, n, hsp, ?_⟩
        intro r hr
        rw [h0] at hr
        cases hr
  · split
    · rename_i p n heq
      split_ifs with hrec
      · exact iff_of_true rfl
          (Or.inr ⟨p, n, heq, matchingRecords_eq_nil_iff.mp hrec⟩)
      · apply iff_of_false
        · simp
        · rintro (hall | ⟨p', n', hsp', hnone⟩)
          · exact hall p n heq
          · rw [heq] at hsp'
            obtain ⟨rfl, rfl⟩ : p = p' ∧ n = n' := by
              injection hsp' with e1 e2
              injection e2 with e3 _
              exact ⟨e1, e3⟩
            exact hrec (matchingRecords_eq_nil_iff.mpr hnone)
    · rename_i hne
      refine iff_of_true rfl (Or.inl ?_)
      intro p n hc
      exact hne p n hc

/-- C9: when `prepare_student_data` succeeds, the stored selection holds
exactly the table rows matching the resolved (first, last) pair, in table
order; the available UE list is sorted ascending, duplicate-free, and holds
exactly the distinct UE codes occurring among the matching rows; and the
display name is echoed back unchanged. -/
theorem resolve_success_spec (df : GradeTable) (name : String)
    (sel : StudentSelection) (h : prepare_student_data df name = some sel) :
    (∃ p n, splitOnce name = [p, n] ∧
      sel.student_records = matchingRecords df p n) ∧
    sel.available_ues.Sorted (· ≤ ·) ∧
    sel.available_ues.Nodup ∧
    (∀ u, u ∈ sel.available_ues ↔ u ∈ sel.student_records.map (fun r => r.ue)) ∧
    sel.student_name = name := by
  obtain ⟨p, n, hsp, hrec, hne, hues, hname⟩ :=
    prepare_student_data_some df name sel h
  refine ⟨⟨p, n, hsp, hrec⟩, ?_, ?_, ?_, hname⟩
  · rw [hues]
    exact sortStrings_sorted _
  · rw [hues]
    exact sortStrings_nodup (List.nodup_dedup _)
  · intro u
    rw [hues, mem_sortStrings, List.mem_dedup]

/-- Witness for C9: the concrete selection stored for "Jean Dupont" over the
two-row table `dupTable`. -/
theorem resolve_success_spec_witness :
    (∃ p n, splitOnce "Jean Dupont" = [p, n] ∧
      dupSel.student_records = matchingRecords dupTable p n) ∧
    dupSel.available_ues.Sorted (· ≤ ·) ∧
    dupSel.available_ues.Nodup ∧
    (∀ u, u ∈ dupSel.available_ues ↔
      u ∈ dupSel.student_records.map (fun r => r.ue)) ∧
    dupSel.student_name = "Jean Dupont" :=
  resolve_success_spec dupTable "Jean Dupont" dupSel (by decide)

theorem filterUe_subset (records : GradeTable) (uf : Option String)
    (r : GradeRecord) (h : r ∈ filterUe records uf) : r ∈ records := by
  cases uf with
  | none => exact h
  | some u =>
      simp only [filterUe] at h
      split_ifs at h with hu
      · exact h
      · exact List.mem_of_mem_filter h

/-- C3 counterexample: the selection for "Jean Dupont" over `dupTable` holds
two records for the single subject "Math"; the comparison has two rows, not
one row per distinct subject. -/
theorem subjectComparison_length_counterexample :
    prepare_student_data dupTable "Jean Dupont" = some dupSel ∧
    (subjectComparison dupTable dupSel none).length = 2 ∧
    ((dupSel.student_records.map (fun r => r.matiere)).dedup).length = 1 :=
  ⟨by decide, by decide, by decide⟩

/-- C3 (amended): the per-subject comparison has one row per record of the
unit-filtered selection — the left merge with the per-subject class aggregate
never collapses duplicate subjects — so its length equals the filtered record
count; it equals the number of distinct subject names exactly in the case
where the filtered records carry pairwise distinct subjects. -/
theorem subjectComparison_length (df : GradeTable) (sel : StudentSelection)
    (uf : Option String) :
    (subjectComparison df sel uf).length =
      (filterUe sel.student_records uf).length ∧
    (((filterUe sel.student_records uf).map (fun r => r.matiere)).Nodup →
      (subjectComparison df sel uf).length =
        (((filterUe sel.student_records uf).map
          (fun r => r.matiere)).dedup).length) := by
  constructor
  · unfold subjectComparison
    simp
  · intro hnd
    rw [List.dedup_eq_self.mpr hnd, List.length_map]
    unfold subjectComparison
    simp

/-- Evaluation of the comparison rows for `dupSel` over `dupTable`. -/
theorem subjectComparison_dup_eval :
    subjectComparison dupTable dupSel none =
      [⟨"Math", 8, some 10, some 8, some 12⟩,
       ⟨"Math", 12, some 10, some 8, some 12⟩] := by
  have hnotes : notesOf dupTable "Math" = [8, 12] := rfl
  have h1 : listMean (notesOf dupTable "Math") = 10 := by
    rw [hnotes]
    norm_num [listMean]
  have h2 : listMin (notesOf dupTable "Math") = 8 := by
    rw [hnotes]
    norm_num [listMin, min_def]
  have h3 : listMax (notesOf dupTable "Math") = 12 := by
    rw [hnotes]
    norm_num [listMax, max_def]
  have e : subjectComparison dupTable dupSel none =
      [⟨"Math", 8, some (listMean (notesOf dupTable "Math")),
        some (listMin (notesOf dupTable "Math")),
        some (listMax (notesOf dupTable "Math"))⟩,
       ⟨"Math", 12, some (listMean (notesOf dupTable "Math")),
        some (listMin (notesOf dupTable "Math")),
        some (listMax (notesOf dupTable "Math"))⟩] := rfl
  rw [e, h1, h2, h3]

/-- C4: the class statistics attached to a comparison row are global:
whenever the full table has at least one row for the subject, the attached
values are exactly the mean, minimum and maximum of the Note values of all
rows of the entire table with that subject — the same for every selected
student and every unit filter. -/
theorem subjectComparison_class_stats_global (df : GradeTable)
    (sel : StudentSelection) (uf : Option String) (row : PlotRow)
    (hrow : row ∈ subjectComparison df sel uf)
    (hne : notesOf df row.matiere ≠ []) :
    row.moyenneClasse = some (listMean (notesOf df row.matiere)) ∧
    row.minClasse = some (listMin (notesOf df row.matiere)) ∧
    row.maxClasse = some (listMax (notesOf df row.matiere)) := by
  unfold subjectComparison at hrow
  obtain ⟨r, hr, heq⟩ := List.mem_map.mp hrow
  have hkey := class_stats_find? df r.matiere
  by_cases hm : r.matiere ∈ df.map (fun x => x.matiere)
  · rw [if_pos hm] at hkey
    rw [hkey] at heq
    subst heq
    exact ⟨rfl, rfl, rfl⟩
  · rw [if_neg hm] at hkey
    rw [hkey] at heq
    subst heq
    exact absurd (notesOf_ne_nil_iff.mp hne) hm

/-- Witness for C4 at the concrete row for grade 8 in `dupSel`. -/
theorem subjectComparison_class_stats_global_witness :
    w4row.moyenneClasse = some (listMean (notesOf dupTable w4row.matiere)) ∧
    w4row.minClasse = some (listMin (notesOf dupTable w4row.matiere)) ∧
    w4row.maxClasse = some (listMax (notesOf dupTable w4row.matiere)) :=
  subjectComparison_class_stats_global dupTable dupSel none w4row
    (by rw [subjectComparison_dup_eval]; exact List.mem_cons_self _ _)
    (by decide)

/-- C10: for a selection the resolver produced from the same table the class
statistics are grouped from, every comparison row finds a non-empty class
group — the left join never yields null statistics — and the global minimum
and maximum bracket the student's own grade. -/
theorem subjectComparison_selection_bounds (df : GradeTable) (name : String)
    (sel : StudentSelection) (hsel : prepare_student_data df name = some sel)
    (uf : Option String) (row : PlotRow)
    (hrow : row ∈ subjectComparison df sel uf) :
    ∃ mean mn mx, row.moyenneClasse = some mean ∧ row.minClasse = some mn ∧
      row.maxClasse = some mx ∧ mn ≤ row.note ∧ row.note ≤ mx := by
  obtain ⟨p, n, hsp, hrec, hne0, hues, hname⟩ :=
    prepare_student_data_some df name sel hsel
  unfold subjectComparison at hrow
  obtain ⟨r, hr, heq⟩ := List.mem_map.mp hrow
  have hrdf : r ∈ df := by
    have hr' : r ∈ sel.student_records := filterUe_subset _ uf r hr
    rw [hrec] at hr'
    exact List.mem_of_mem_filter hr'
  have hnote : r.note ∈ notesOf df r.matiere := note_mem_notesOf hrdf
  have hm : r.matiere ∈ df.map (fun x => x.matiere) :=
    notesOf_ne_nil_iff.mp (List.ne_nil_of_mem hnote)
  have hkey := class_stats_find? df r.matiere
  rw [if_pos hm] at hkey
  rw [hkey] at heq
  subst heq
  exact ⟨_, _, _, rfl, rfl, rfl, listMin_le hnote, le_listMax hnote⟩

/-- Witness for C10 at the concrete row for grade 8 in `dupSel`: the class
minimum 8 and maximum 12 bracket the grade 8. -/
theorem subjectComparison_selection_bounds_witness :
    ∃ mean mn mx, w4row.moyenneClasse = some mean ∧
      w4row.minClasse = some mn ∧ w4row.maxClasse = some mx ∧
      mn ≤ w4row.note ∧ w4row.note ≤ mx :=
  subjectComparison_selection_bounds dupTable "Jean Dupont" dupSel (by decide)
    none w4row
    (by rw [subjectComparison_dup_eval]; exact List.mem_cons_self _ _)

/-- C5: `unitAverages` has one row per distinct UE of the selection — its UE
column is duplicate-free and holds exactly the UE codes occurring among the
records — sorted ascending by UE code; each row carries the arithmetic mean
of that UE's grades rounded to one decimal and the count of distinct subject
names within that UE; on the concrete selection holding grades [12, 8] for
the single subject "Math" in "UE1", the one row is exactly (UE1, 10.0, 1). -/
theorem unitAverages_spec (sel : StudentSelection) :
    ((unitAverages sel).map (fun r => r.ue)).Sorted (· ≤ ·) ∧
    ((unitAverages sel).map (fun r => r.ue)).Nodup ∧
    (∀ u, u ∈ (unitAverages sel).map (fun r => r.ue) ↔
      u ∈ sel.student_records.map (fun r => r.ue)) ∧
    (∀ row ∈ unitAverages sel,
      row.note = round1 (listMean
        ((sel.student_records.filter (fun r => r.ue = row.ue)).map
          (fun r => r.note))) ∧
      row.nbMatieres = (((sel.student_records.filter
          (fun r => r.ue = row.ue)).map (fun r => r.matiere)).dedup).length) ∧
    unitAverages twoGradeSel = [⟨"UE1", 10, 1⟩] := by
  have hmap : (unitAverages sel).map (fun r => r.ue) =
      sortStrings ((sel.student_records.map (fun r => r.ue)).dedup) := by
    unfold unitAverages
    rw [List.map_map]
    have hcomp : ((fun r : UnitRow => r.ue) ∘ ueRow sel.student_records) =
        id := by
      funext u
      rfl
    rw [hcomp, List.map_id]
  refine ⟨?_, ?_, ?_, ?_, ?_⟩
  · rw [hmap]
    exact sortStrings_sorted _
  · rw [hmap]
    exact sortStrings_nodup (List.nodup_dedup _)
  · intro u
    rw [hmap, mem_sortStrings, List.mem_dedup]
  · intro row hrow
    unfold unitAverages at hrow
    obtain ⟨u, hu, heq⟩ := List.mem_map.mp hrow
    subst heq
    exact ⟨rfl, rfl⟩
  · have e : unitAverages twoGradeSel =
        [⟨"UE1", round1 (listMean [12, 8]), 1⟩] := rfl
    rw [e]
    have hm : listMean [12, 8] = 10 := by norm_num [listMean]
    rw [hm]
    have hr : round1 (10 : ℚ) = 10 := by
      unfold round1
      rw [show ((10 : ℚ) * 10) = ((100 : ℤ) : ℚ) by norm_num]
      rw [roundHalfEven_of_fract_lt _ 100 (by norm_num) (by norm_num)
        (by norm_num)]
      norm_num
    rw [hr]

/-- C6: the overall statistics are computed from every record of the stored
selection — the callback takes no unit-filter input at all, so no filter can
affect them; a missing selection or an empty record list yields the explicit
no-data signal (None, the "Pas de données" card), never 0 and never NaN; and
on the spec's end-to-end table the mean over [8, 14, 10] is 32/3 — displayed
as 10.67 after two-decimal rounding — with 3 distinct subjects. -/
theorem overall_spec :
    overall none = none ∧
    (∀ s : StudentSelection,
      overall (some s) = none ↔ s.student_records = []) ∧
    (∀ s : StudentSelection, s.student_records ≠ [] →
      overall (some s) =
        some (listMean (s.student_records.map (fun r => r.note)),
          ((s.student_records.map (fun r => r.matiere)).dedup).length)) ∧
    overall (prepare_student_data dupontTable "Jean Dupont") =
      some (32/3, 3) ∧
    round2 (32/3) = 1067/100 := by
  refine ⟨rfl, ?_, ?_, ?_, ?_⟩
  · intro s
    simp only [overall]
    split_ifs with h
    · exact iff_of_true rfl h
    · exact iff_of_false (by simp) h
  · intro s h
    simp only [overall]
    rw [if_neg h]
  · have e : prepare_student_data dupontTable "Jean Dupont" =
        some ⟨dupontTable,
          sortStrings ((dupontTable.map (fun r => r.ue)).dedup),
          "Jean Dupont"⟩ := rfl
    rw [e]
    have e2 : overall (some (⟨dupontTable,
        sortStrings ((dupontTable.map (fun r => r.ue)).dedup),
        "Jean Dupont"⟩ : StudentSelection)) =
        some (listMean (dupontTable.map (fun r => r.note)),
          ((dupontTable.map (fun r => r.matiere)).dedup).length) := rfl
    rw [e2]
    have hm : listMean (dupontTable.map (fun r => r.note)) = 32/3 := by
      norm_num [listMean, dupontTable]
    rw [hm]
    rfl
  · unfold round2
    rw [show ((100 : ℚ) * (32/3)) = 3200/3 by norm_num]
    rw [show ((3200 : ℚ)/3) = ((1066 : ℤ) : ℚ) + 2/3 by norm_num]
    rw [roundHalfEven_of_fract_gt _ 1066 (by norm_num) (by norm_num)
      (by norm_num)]
    norm_num
